import Mathlib

/-!
Shallow embedding of the zkcreds proof core: the sparse commitment tree and its
membership circuit (`src/com_tree.rs`) and the predicate-proof machinery
(`src/pred.rs`).

Conventions of the embedding:
* Rust panics (`expect`, `checked_sub(..).expect(..)`) and `Result::Err` are
  both modelled as `Except.error` with the panic/error message.
* The two-to-one hash of the tree is abstract: `hl` combines the two raw leaf
  values of a sibling leaf pair (the leaf level applies the identity leaf-hash,
  so the two-to-one hash acts on raw leaf bytes), and `hi` combines two inner
  hash outputs.  Both take the public hash parameters as their first argument.
* `C` is the attribute-commitment output type (also the raw leaf type), `α` is
  the two-to-one hash output type, `F` is the constraint field, `P` the type of
  the public hash parameters.
* The sparse Merkle tree engine (`crate::sparse_merkle`) and the pairing-based
  proof engine (`ark_groth16`) are not part of the two core source files; they
  are modelled from the spec's contracts (see the individual doc comments).
-/

section TreeModel

variable {P C α F : Type}

/-- An authentication path: the raw sibling pair at the leaf level plus the
ordered sibling hash pairs of the internal levels, bottom-up.  Mirrors
`SparseMerkleTreePath` of `crate::sparse_merkle` as used by `com_tree.rs`
(fields `leaf_hashes` and `inner_hashes`). -/
structure SMTPath (C α : Type) where
  leaf_hashes : C × C
  inner_hashes : List (α × α)
deriving DecidableEq

/-- One internal level of the tree: the parent at position `j` is the
two-to-one hash of the children at positions `2j` and `2j+1`. -/
def levelUp (hiP : α → α → α) (g : Nat → α) : Nat → α :=
  fun j => hiP (g (2 * j)) (g (2 * j + 1))

/-- The bottom combining step: adjacent raw leaf slots are combined directly by
the two-to-one hash (no leaf hash is applied; `ComTreeConfig` uses
`IdentityCRH` as its leaf hash). -/
def levelOne (hlP : C → C → α) (f : Nat → C) : Nat → α :=
  fun j => hlP (f (2 * j)) (f (2 * j + 1))

/-- `iterLevels hiP g k j` is the value of the node `k` internal levels above
level `g`, at position `j`. -/
def iterLevels (hiP : α → α → α) (g : Nat → α) : Nat → Nat → α
  | 0 => g
  | k + 1 => iterLevels hiP (levelUp hiP g) k

/-- Modelled from the spec: the sparse, index-addressed commitment tree of
`crate::sparse_merkle` (not under `src/`): a fixed-height binary tree over
`2^height` leaf slots, each holding a commitment or the canonical default
value, parameterized by the public two-to-one hash parameters. -/
structure SparseMerkleTree (P C : Type) where
  height : Nat
  two_to_one_param : P
  leaves : Nat → C

/-- Modelled from the spec: `SparseMerkleTree::empty` — all `2^height` slots
hold the canonical default value. -/
def SparseMerkleTree.empty [Inhabited C] (params : P) (height : Nat) :
    SparseMerkleTree P C :=
  ⟨height, params, fun _ => default⟩

/-- Modelled from the spec: the root is the deterministic function of all leaf
contents — raw leaf pairs are combined by the two-to-one hash, and every level
above applies the two-to-one hash to sibling pairs up to the root. -/
def SparseMerkleTree.root (hl : P → C → C → α) (hi : P → α → α → α)
    (t : SparseMerkleTree P C) : α :=
  iterLevels (hi t.two_to_one_param) (levelOne (hl t.two_to_one_param) t.leaves)
    (t.height - 1) 0

/-- Modelled from the spec: `SparseMerkleTree::insert` overwrites (or sets) the
slot; fatal (`panic`, modelled as `Except.error`) if `idx ≥ 2^height`. -/
def SparseMerkleTree.insert (t : SparseMerkleTree P C) (idx : Nat) (c : C) :
    Except String (SparseMerkleTree P C) :=
  if idx < 2 ^ t.height then
    .ok ⟨t.height, t.two_to_one_param, Function.update t.leaves idx c⟩
  else .error "could not insert item"

/-- Modelled from the spec: `SparseMerkleTree::remove` resets the slot to the
canonical default; fatal if `idx ≥ 2^height`. -/
def SparseMerkleTree.remove [Inhabited C] (t : SparseMerkleTree P C)
    (idx : Nat) : Except String (SparseMerkleTree P C) :=
  if idx < 2 ^ t.height then
    .ok ⟨t.height, t.two_to_one_param, Function.update t.leaves idx default⟩
  else .error "could not remove item"

/-- The ordered sibling hash pairs along the path above a node: `innerPairs hiP
g j r` collects, over `r` internal levels starting at level `g` with current
node position `j`, the sibling pair containing the current node, then moves one
level up. -/
def innerPairs (hiP : α → α → α) (g : Nat → α) (j : Nat) : Nat → List (α × α)
  | 0 => []
  | r + 1 =>
    (g (2 * (j / 2)), g (2 * (j / 2) + 1)) ::
      innerPairs hiP (levelUp hiP g) (j / 2) r

/-- Modelled from the spec: `SparseMerkleTree::generate_proof` returns the
authentication path reconstructing the current root from the expected
commitment at `idx`; fails with an out-of-range error if `idx ≥ 2^height` and
with a mismatch error if the stored value at `idx` differs from the expected
commitment. -/
def SparseMerkleTree.generate_proof [DecidableEq C] (hl : P → C → C → α)
    (hi : P → α → α → α) (t : SparseMerkleTree P C) (idx : Nat)
    (expected : C) : Except String (SMTPath C α) :=
  if 2 ^ t.height ≤ idx then .error "leaf index out of range"
  else if t.leaves idx = expected then
    .ok ⟨(t.leaves (2 * (idx / 2)), t.leaves (2 * (idx / 2) + 1)),
      innerPairs (hi t.two_to_one_param)
        (levelOne (hl t.two_to_one_param) t.leaves) (idx / 2) (t.height - 1)⟩
  else .error "mismatch: tree does not contain the expected value at the index"

/-- Climb an authentication path: at each internal level the running value must
occur in the stored sibling pair, and the pair is hashed to continue; at the
top the running value must equal the root. -/
def checkPath [DecidableEq α] (hiP : α → α → α) (root : α) :
    α → List (α × α) → Bool
  | cur, [] => cur == root
  | cur, (l, r) :: rest =>
    ((cur == l) || (cur == r)) && checkPath hiP root (hiP l r) rest

/-- Modelled from the spec: the constraint enforced by
`SparseMerkleTreePathVar::check_membership` (in `crate::sparse_merkle`, not
under `src/`): the leaf pair must contain the claimed leaf, the leaf pair is
combined by the two-to-one hash, and the path is recomputed upward to equal the
public root. -/
def checkMembership [DecidableEq C] [DecidableEq α] (hl : P → C → C → α)
    (hi : P → α → α → α) (params : P) (root : α) (leaf : C)
    (path : SMTPath C α) : Bool :=
  ((leaf == path.leaf_hashes.1) || (leaf == path.leaf_hashes.2)) &&
    checkPath (hi params) root
      (hl params path.leaf_hashes.1 path.leaf_hashes.2) path.inner_hashes

/-- Climbing the honestly generated inner pairs from any in-range node position
recomputes exactly the value obtained by iterating the levels to the top. -/
theorem checkPath_innerPairs [DecidableEq α] (hiP : α → α → α) :
    ∀ (r : Nat) (g : Nat → α) (j : Nat), j < 2 ^ r →
      checkPath hiP (iterLevels hiP g r 0) (g j) (innerPairs hiP g j r) =
        true := by
  intro r
  induction r with
  | zero =>
    intro g j hj
    have hj0 : j = 0 := by omega
    subst hj0
    simp [checkPath, innerPairs, iterLevels]
  | succ r ih =>
    intro g j hj
    have hdiv : j / 2 < 2 ^ r := by
      have h2 : (0 : Nat) < 2 := by norm_num
      rw [Nat.div_lt_iff_lt_mul h2]
      calc j < 2 ^ (r + 1) := hj
        _ = 2 ^ r * 2 := by rw [pow_succ]
    have hrec := ih (levelUp hiP g) (j / 2) hdiv
    have hsib : ((g j == g (2 * (j / 2))) || (g j == g (2 * (j / 2) + 1))) =
        true := by
      rcases Nat.mod_two_eq_zero_or_one j with hm | hm
      · have hje : 2 * (j / 2) = j := by omega
        rw [hje]
        simp
      · have hje : 2 * (j / 2) + 1 = j := by omega
        rw [hje]
        simp
    simp only [innerPairs, checkPath, iterLevels]
    rw [hsib]
    simp only [Bool.true_and]
    exact hrec

/-- Completeness of the honestly generated authentication path: if the stored
value at an in-range index is the expected commitment, `generate_proof`
succeeds and the resulting path passes the membership check against the tree's
root. -/
theorem generate_proof_complete [DecidableEq C] [DecidableEq α]
    (hl : P → C → C → α) (hi : P → α → α → α) (t : SparseMerkleTree P C)
    (idx : Nat) (c : C) (hh : 1 ≤ t.height) (hidx : idx < 2 ^ t.height)
    (hc : t.leaves idx = c) :
    ∃ path, t.generate_proof hl hi idx c = Except.ok path ∧
      checkMembership hl hi t.two_to_one_param (t.root hl hi) c path = true := by
  refine ⟨⟨(t.leaves (2 * (idx / 2)), t.leaves (2 * (idx / 2) + 1)),
    innerPairs (hi t.two_to_one_param)
      (levelOne (hl t.two_to_one_param) t.leaves) (idx / 2)
      (t.height - 1)⟩, ?_, ?_⟩
  · rw [SparseMerkleTree.generate_proof, if_neg (by omega), if_pos hc]
  · have hdiv : idx / 2 < 2 ^ (t.height - 1) := by
      have h2 : (0 : Nat) < 2 := by norm_num
      rw [Nat.div_lt_iff_lt_mul h2]
      have hpow : 2 ^ (t.height - 1) * 2 = 2 ^ t.height := by
        rw [← pow_succ]
        congr 1
        omega
      omega
    have hmain := checkPath_innerPairs (hi t.two_to_one_param) (t.height - 1)
      (levelOne (hl t.two_to_one_param) t.leaves) (idx / 2) hdiv
    have hsib : ((c == t.leaves (2 * (idx / 2))) ||
        (c == t.leaves (2 * (idx / 2) + 1))) = true := by
      rcases Nat.mod_two_eq_zero_or_one idx with hm | hm
      · have hje : 2 * (idx / 2) = idx := by omega
        rw [hje, hc]
        simp
      · have hje : 2 * (idx / 2) + 1 = idx := by omega
        rw [hje, hc]
        simp
    rw [checkMembership]
    rw [hsib]
    simp only [Bool.true_and]
    exact hmain

end TreeModel

section Groth16Model

variable {P C α F S : Type}

/-- A constraint system in proving mode: the public input values in allocation
order, and the list of enforced equations, each already evaluated at the
concrete assignment the synthesizer produced. -/
structure R1CS (F : Type) where
  pubs : List F
  cons : List Bool

/-- The empty constraint system a synthesizer starts from. -/
def R1CS.emptyCS : R1CS F := ⟨[], []⟩

/-- `new_input`: allocate a public input; its field-element encoding is
appended to the public input vector in allocation order. -/
def R1CS.new_input (r : R1CS F) (fs : List F) : R1CS F := ⟨r.pubs ++ fs, r.cons⟩

/-- `enforce_equal` and friends: append an enforced (already evaluated)
equation. -/
def R1CS.enforce (r : R1CS F) (b : Bool) : R1CS F := ⟨r.pubs, r.cons ++ [b]⟩

/-- Append a whole list of enforced equations. -/
def R1CS.enforceAll (r : R1CS F) (bs : List Bool) : R1CS F :=
  ⟨r.pubs, r.cons ++ bs⟩

/-- The assignment satisfies the system iff every enforced equation holds. -/
def R1CS.satisfied (r : R1CS F) : Bool := r.cons.all (fun b => b)

/-- A proving key of the external proof engine, reduced to what the contract
depends on: the circuit shape it was generated for and the number of public
inputs of that shape. -/
structure G16ProvingKey (S : Type) where
  shape : S
  nPubs : Nat
deriving DecidableEq

/-- A verifying key: the matched half of a proving key. -/
structure G16VerifyingKey (S : Type) where
  shape : S
  nPubs : Nat
deriving DecidableEq

/-- A proof: an opaque artifact meaningful only against its matching verifying
key and a specific public-input vector; modelled as carrying the shape of the
key it was built with and the public inputs it was built against. -/
structure G16Proof (S F : Type) where
  shape : S
  pubs : List F
deriving DecidableEq

/-- `TreeProvingKey::prepare_verifying_key`: the verifying key matched to a
proving key. -/
def G16ProvingKey.prepare_verifying_key (pk : G16ProvingKey S) :
    G16VerifyingKey S :=
  ⟨pk.shape, pk.nPubs⟩

/-- Modelled from the spec: `ark_groth16::create_random_proof` (an external
cryptographic engine, not part of this repository).  Per the spec's failure
taxonomy, proof generation fails outright when the witnessed assignment does
not satisfy the constraint system, and otherwise yields a proof bound to the
key's circuit shape and the assignment's public inputs. -/
def g16Prove (pk : G16ProvingKey S) (r : R1CS F) :
    Except String (G16Proof S F) :=
  if r.satisfied then .ok ⟨pk.shape, r.pubs⟩
  else .error "unsatisfiable constraint system"

/-- Modelled from the spec: `ark_groth16::verify_proof` (external engine).  A
well-formed but unsatisfying proof or a key/parameter mismatch yields the
boolean `false`, never a crash; the only error case is a public-input vector
whose length does not match the key's shape. -/
def g16Verify [DecidableEq S] [DecidableEq F] (vk : G16VerifyingKey S)
    (proof : G16Proof S F) (inputs : List F) : Except String Bool :=
  if inputs.length = vk.nPubs then
    .ok ((proof.shape == vk.shape) && (proof.pubs == inputs))
  else .error "malformed verifying key"

end Groth16Model

section TreeCircuit

variable {P C α F : Type}

/-- The circuit of `com_tree.rs` lines 212-236: proves that a commitment to
`attrs` appears in the Merkle tree of height `height` defined by root hash
`root`. -/
structure TreeMembershipProver (P C α : Type) where
  height : Nat
  crh_param : P
  attrs_com : C
  root : α
  auth_path : Option (SMTPath C α)

/-- The auth-path resolution of `com_tree.rs` lines 266-281: in proving mode
the real path is used; with no path (key-generation / setup mode) a dummy path
is built from a leaf pair of two default-commitment byte strings and
`height - 2` pairs of default hash outputs, and `height.checked_sub(2)`
panics (modelled as `Except.error`) when `height < 2`. -/
def TreeMembershipProver.resolve_auth_path [Inhabited C] [Inhabited α]
    (p : TreeMembershipProver P C α) : Except String (SMTPath C α) :=
  match p.auth_path with
  | some path => .ok path
  | none =>
    if p.height < 2 then .error "tree height cannot be < 2"
    else
      .ok ⟨((default : C), (default : C)),
        List.replicate (p.height - 2) ((default : α), (default : α))⟩

/-- `TreeMembershipProver::generate_constraints` (`com_tree.rs` lines
249-296): allocate `attrs_com` then `root` as public inputs, resolve the auth
path, and enforce the membership check of the path against the root and the
leaf commitment. -/
def TreeMembershipProver.generate_constraints [DecidableEq C] [DecidableEq α]
    [Inhabited C] [Inhabited α] (hl : P → C → C → α) (hi : P → α → α → α)
    (toFC : C → List F) (toFα : α → List F) (p : TreeMembershipProver P C α) :
    Except String (R1CS F) :=
  let cs1 := (R1CS.emptyCS : R1CS F).new_input (toFC p.attrs_com)
  let cs2 := cs1.new_input (toFα p.root)
  match p.resolve_auth_path with
  | .error e => .error e
  | .ok path =>
    .ok (cs2.enforce
      (checkMembership hl hi p.crh_param p.root p.attrs_com path))

/-- The wrapped attribute-commitment tree of `com_tree.rs` lines 39-51. -/
structure ComTree (P C : Type) where
  tree : SparseMerkleTree P C

/-- `ComTree::root` (`com_tree.rs` lines 62-64). -/
def ComTree.root (hl : P → C → C → α) (hi : P → α → α → α)
    (t : ComTree P C) : α :=
  t.tree.root hl hi

/-- `ComTree::empty` (`com_tree.rs` lines 67-72). -/
def ComTree.empty [Inhabited C] (crh_params : P) (tree_height : Nat) :
    ComTree P C :=
  ⟨SparseMerkleTree.empty crh_params tree_height⟩

/-- `ComTree::insert` (`com_tree.rs` lines 99-101): panics (modelled as an
error) when `idx ≥ 2^height`. -/
def ComTree.insert (t : ComTree P C) (idx : Nat) (com : C) :
    Except String (ComTree P C) :=
  match t.tree.insert idx com with
  | .ok tr => .ok ⟨tr⟩
  | .error e => .error e

/-- `ComTree::remove` (`com_tree.rs` lines 108-110). -/
def ComTree.remove [Inhabited C] (t : ComTree P C) (idx : Nat) :
    Except String (ComTree P C) :=
  match t.tree.remove idx with
  | .ok tr => .ok ⟨tr⟩
  | .error e => .error e

/-- The circuit shape a tree membership key is generated for: the hash
parameters and the tree height. -/
structure TreeShape (P : Type) where
  params : P
  height : Nat
deriving DecidableEq

/-- `ComTree::prove_membership` (`com_tree.rs` lines 113-149): read the root,
generate the auth path for the index (the `expect` panic on failure is
modelled as a propagated error), build the circuit with the real witness, and
run the external prover. -/
def ComTree.prove_membership [DecidableEq C] [DecidableEq α] [Inhabited C]
    [Inhabited α] (hl : P → C → C → α) (hi : P → α → α → α)
    (toFC : C → List F) (toFα : α → List F)
    (pk : G16ProvingKey (TreeShape P)) (t : ComTree P C) (idx : Nat)
    (attrs_com : C) : Except String (G16Proof (TreeShape P) F) :=
  let root := t.tree.root hl hi
  match t.tree.generate_proof hl hi idx attrs_com with
  | .error e => .error e
  | .ok auth_path =>
    let prover : TreeMembershipProver P C α :=
      ⟨t.tree.height, t.tree.two_to_one_param, attrs_com, root, some auth_path⟩
    match prover.generate_constraints hl hi toFC toFα with
    | .error e => .error e
    | .ok r => g16Prove pk r

/-- `gen_tree_memb_crs` (`com_tree.rs` lines 153-184): run the circuit in
setup mode (default commitment, default root, no auth path) to fix the shape,
and produce the proving key for this height and parameter choice. -/
def gen_tree_memb_crs [DecidableEq C] [DecidableEq α] [Inhabited C]
    [Inhabited α] (hl : P → C → C → α) (hi : P → α → α → α)
    (toFC : C → List F) (toFα : α → List F) (crh_param : P) (height : Nat) :
    Except String (G16ProvingKey (TreeShape P)) :=
  let prover : TreeMembershipProver P C α :=
    ⟨height, crh_param, default, default, none⟩
  match prover.generate_constraints hl hi toFC toFα with
  | .error e => .error e
  | .ok r => .ok ⟨⟨crh_param, height⟩, r.pubs.length⟩

/-- `verify_tree_memb` (`com_tree.rs` lines 187-208): the public-input vector
is the field-element encoding of `attrs_com` followed by the field-element
encoding of the Merkle root, and the external verifier is run on it. -/
def verify_tree_memb [DecidableEq P] [DecidableEq F] (toFC : C → List F)
    (toFα : α → List F) (vk : G16VerifyingKey (TreeShape P))
    (proof : G16Proof (TreeShape P) F) (attrs_com : C) (merkle_root : α) :
    Except String Bool :=
  let attr_com_input := toFC attrs_com
  let root_input := toFα merkle_root
  let all_inputs := attr_com_input ++ root_input
  g16Verify vk proof all_inputs

end TreeCircuit

section PredCircuit

variable {A C M F S : Type}

/-- The pluggable predicate of `pred.rs` lines 18-37: a boolean statement
over an attribute record (`pred`, evaluated inside the constraint system on the
witnessed record) plus the predicate-specific public field elements. -/
structure PredicateChecker (A F : Type) where
  pred : A → Bool
  public_inputs : List F

/-- `PredicateProver` (`pred.rs` lines 123-138): the checker, the real
attribute record, and the commitment to the Merkle root.  `A` is the attribute
record type, `M` the Merkle-root commitment output type. -/
structure PredicateProver (A M F : Type) where
  checker : PredicateChecker A F
  attrs : A
  merkle_root_com : M

/-- The enforced equations of the predicate circuit (`pred.rs` lines 163-169)
as a function of the value held by the public input `attrs_com` and the
witnessed attribute record: line 165 enforces that the public commitment
equals the commitment recomputed from the witnessed attributes, and lines
168-169 enforce that the predicate evaluates to `true` on them.  `commit` is
the attribute commitment scheme (the in-circuit gadget recomputes the same
commitment as the native scheme). -/
def predCircuitCons [DecidableEq C] (commit : A → C) (pred : A → Bool)
    (attrs_com_input : C) (attrs_wit : A) : List Bool :=
  [attrs_com_input == commit attrs_wit, pred attrs_wit == true]

/-- `PredicateProver::generate_constraints` (`pred.rs` lines 152-170):
allocate the commitment of the real attributes as public input `attrs_com`
(line 158-159), allocate the Merkle-root commitment as public input (lines
160-161, bound to no constraint), witness the attribute record, and enforce
the circuit equations on it. -/
def PredicateProver.generate_constraints [DecidableEq C] (commit : A → C)
    (toFC : C → List F) (toFM : M → List F) (p : PredicateProver A M F) :
    R1CS F :=
  let cs1 := (R1CS.emptyCS : R1CS F).new_input (toFC (commit p.attrs))
  let cs2 := cs1.new_input (toFM p.merkle_root_com)
  cs2.enforceAll
    (predCircuitCons commit p.checker.pred (commit p.attrs) p.attrs)

/-- `gen_pred_crs` (`pred.rs` lines 39-65): run the circuit on the default
attribute record and default root commitment purely to fix its shape, and
produce the proving key. -/
def gen_pred_crs [DecidableEq C] [Inhabited A] [Inhabited M] (commit : A → C)
    (toFC : C → List F) (toFM : M → List F) (checker : PredicateChecker A F) :
    Except String (G16ProvingKey Unit) :=
  let prover : PredicateProver A M F := ⟨checker, default, default⟩
  let r := prover.generate_constraints commit toFC toFM
  .ok ⟨(), r.pubs.length⟩

/-- `prove_pred` (`pred.rs` lines 67-96): build the prover from the checker,
the real attribute record, and the Merkle-root commitment (no attribute
commitment is accepted as an argument), and run the external prover on the
generated constraint system. -/
def prove_pred [DecidableEq C] (commit : A → C) (toFC : C → List F)
    (toFM : M → List F) (pk : G16ProvingKey S)
    (checker : PredicateChecker A F) (attrs : A) (merkle_root_com : M) :
    Except String (G16Proof S F) :=
  let prover : PredicateProver A M F := ⟨checker, attrs, merkle_root_com⟩
  g16Prove pk (prover.generate_constraints commit toFC toFM)

end PredCircuit

/-- C2: the predicate circuit's constraint system is satisfiable exactly when
the commitment recomputed from the witnessed attribute record equals the
public input `attrs_com` and the pluggable predicate evaluates to `true` over
the witnessed attribute record; and exactly these conditions are the enforced
constraints of every generated proof system. -/
theorem pred_circuit_sat_iff {A C M F : Type} [DecidableEq C] (commit : A → C)
    (pred : A → Bool) :
    (∀ (x : C) (w : A),
      ((R1CS.mk ([] : List F) (predCircuitCons commit pred x w)).satisfied =
          true) ↔ (x = commit w ∧ pred w = true))
    ∧ ∀ (toFC : C → List F) (toFM : M → List F) (p : PredicateProver A M F),
        (p.generate_constraints commit toFC toFM).cons =
          predCircuitCons commit p.checker.pred (commit p.attrs) p.attrs := by
  constructor
  · intro x w
    simp [R1CS.satisfied, predCircuitCons]
  · intro toFC toFM p
    simp [PredicateProver.generate_constraints, R1CS.enforceAll,
      R1CS.new_input, R1CS.emptyCS]

/-- Witness for C2 at a concrete commitment scheme and predicate. -/
theorem pred_circuit_sat_iff_witness :
    (∀ (x : Nat) (w : Nat),
      ((R1CS.mk ([] : List Nat)
          (predCircuitCons (fun a => a + 1) (fun a => decide (3 ≤ a)) x
            w)).satisfied = true) ↔
        (x = w + 1 ∧ decide (3 ≤ w) = true))
    ∧ ∀ (toFC : Nat → List Nat) (toFM : Nat → List Nat)
        (p : PredicateProver Nat Nat Nat),
        (p.generate_constraints (fun a => a + 1) toFC toFM).cons =
          predCircuitCons (fun a => a + 1) p.checker.pred (p.attrs + 1)
            p.attrs :=
  @pred_circuit_sat_iff Nat Nat Nat Nat _ (fun a => a + 1)
    (fun a => decide (3 ≤ a))

/-- C3: the public `root_commitment` is allocated as a public input of the
predicate circuit but no constraint relates it to anything: for any two values
of `root_commitment` (all other inputs and witnesses equal) the generated
constraint system is satisfied by the one assignment iff by the other, while
the public-input vectors differ exactly in the `root_commitment` segment. -/
theorem pred_root_com_unconstrained {A C M F : Type} [DecidableEq C]
    (commit : A → C) (toFC : C → List F) (toFM : M → List F)
    (checker : PredicateChecker A F) (attrs : A) (r1 r2 : M) :
    ((PredicateProver.generate_constraints commit toFC toFM
        ⟨checker, attrs, r1⟩).satisfied =
      (PredicateProver.generate_constraints commit toFC toFM
        ⟨checker, attrs, r2⟩).satisfied)
    ∧ (PredicateProver.generate_constraints commit toFC toFM
        ⟨checker, attrs, r1⟩).pubs = toFC (commit attrs) ++ toFM r1
    ∧ (PredicateProver.generate_constraints commit toFC toFM
        ⟨checker, attrs, r2⟩).pubs = toFC (commit attrs) ++ toFM r2 := by
  refine ⟨rfl, ?_, ?_⟩ <;>
    simp [PredicateProver.generate_constraints, R1CS.enforceAll,
      R1CS.new_input, R1CS.emptyCS]

/-- Witness for C3 at concrete values. -/
theorem pred_root_com_unconstrained_witness :
    ((PredicateProver.generate_constraints (fun a : Nat => a + 1)
        (fun c : Nat => [c]) (fun m : Nat => [m])
        ⟨⟨fun a => decide (3 ≤ a), []⟩, 5, 10⟩).satisfied =
      (PredicateProver.generate_constraints (fun a : Nat => a + 1)
        (fun c : Nat => [c]) (fun m : Nat => [m])
        ⟨⟨fun a => decide (3 ≤ a), []⟩, 5, 77⟩).satisfied)
    ∧ (PredicateProver.generate_constraints (fun a : Nat => a + 1)
        (fun c : Nat => [c]) (fun m : Nat => [m])
        ⟨⟨fun a => decide (3 ≤ a), []⟩, 5, 10⟩).pubs = [6] ++ [10]
    ∧ (PredicateProver.generate_constraints (fun a : Nat => a + 1)
        (fun c : Nat => [c]) (fun m : Nat => [m])
        ⟨⟨fun a => decide (3 ≤ a), []⟩, 5, 77⟩).pubs = [6] ++ [77] :=
  pred_root_com_unconstrained (fun a : Nat => a + 1) (fun c : Nat => [c])
    (fun m : Nat => [m]) ⟨fun a => decide (3 ≤ a), []⟩ 5 10 77

/-- C4: for every attribute record that does not satisfy the predicate
checker, `prove_pred` fails at proving time with an error; it cannot return a
proof value. -/
theorem prove_pred_fails_on_false_pred {A C M F S : Type} [DecidableEq C]
    (commit : A → C) (toFC : C → List F) (toFM : M → List F)
    (pk : G16ProvingKey S) (checker : PredicateChecker A F) (attrs : A)
    (merkle_root_com : M) (hfalse : checker.pred attrs = false) :
    prove_pred commit toFC toFM pk checker attrs merkle_root_com =
      Except.error "unsatisfiable constraint system" := by
  have hsat : ((⟨checker, attrs, merkle_root_com⟩ :
      PredicateProver A M F).generate_constraints commit toFC
        toFM).satisfied = false := by
    simp [PredicateProver.generate_constraints, R1CS.satisfied,
      R1CS.enforceAll, R1CS.new_input, R1CS.emptyCS, predCircuitCons, hfalse]
  rw [prove_pred, g16Prove, hsat]
  simp

/-- Witness for C4: a predicate requiring the attribute to be at least 21,
with an attribute record that is 5. -/
theorem prove_pred_fails_on_false_pred_witness :
    (⟨fun a => decide (21 ≤ a), []⟩ : PredicateChecker Nat Nat).pred 5 =
        false
    ∧ prove_pred (fun a : Nat => a + 1) (fun c : Nat => [c])
        (fun m : Nat => [m]) (⟨(), 2⟩ : G16ProvingKey Unit)
        ⟨fun a => decide (21 ≤ a), []⟩ 5 10 =
      Except.error "unsatisfiable constraint system" :=
  ⟨by decide,
    prove_pred_fails_on_false_pred (fun a : Nat => a + 1) (fun c : Nat => [c])
      (fun m : Nat => [m]) ⟨(), 2⟩ ⟨fun a => decide (21 ≤ a), []⟩ 5 10
      (by decide)⟩

/-- C10: `prove_pred` accepts no attribute commitment argument; the public
input `attrs_com` of every predicate proof it returns is the commitment of the
attribute record actually passed to it, followed by the root-commitment
encoding. -/
theorem prove_pred_attrs_com_is_commit {A C M F S : Type} [DecidableEq C]
    (commit : A → C) (toFC : C → List F) (toFM : M → List F)
    (pk : G16ProvingKey S) (checker : PredicateChecker A F) (attrs : A)
    (merkle_root_com : M) (proof : G16Proof S F)
    (hok : prove_pred commit toFC toFM pk checker attrs merkle_root_com =
      Except.ok proof) :
    proof.pubs = toFC (commit attrs) ++ toFM merkle_root_com := by
  rw [prove_pred, g16Prove] at hok
  split at hok
  · cases hok
    simp [PredicateProver.generate_constraints, R1CS.enforceAll,
      R1CS.new_input, R1CS.emptyCS]
  · cases hok

/-- Witness for C10: a concrete successful predicate proof whose public-input
vector starts with the commitment of the passed attributes. -/
theorem prove_pred_attrs_com_is_commit_witness :
    prove_pred (fun a : Nat => a + 1) (fun c : Nat => [c])
        (fun m : Nat => [m]) (⟨(), 2⟩ : G16ProvingKey Unit)
        ⟨fun a => decide (21 ≤ a), []⟩ 30 10 =
      Except.ok ⟨(), [31, 10]⟩
    ∧ (G16Proof.pubs ⟨(), [31, 10]⟩ : List Nat) = [31] ++ [10] :=
  ⟨rfl,
    prove_pred_attrs_com_is_commit (fun a : Nat => a + 1) (fun c : Nat => [c])
      (fun m : Nat => [m]) ⟨(), 2⟩ ⟨fun a => decide (21 ≤ a), []⟩ 30 10
      ⟨(), [31, 10]⟩ rfl⟩

/-- Helper: with a real auth path, the membership circuit synthesizes
successfully, with public inputs `attrs_com` then `root` and the single
membership constraint. -/
theorem tree_generate_constraints_some {P C α F : Type} [DecidableEq C]
    [DecidableEq α] [Inhabited C] [Inhabited α] (hl : P → C → C → α)
    (hi : P → α → α → α) (toFC : C → List F) (toFα : α → List F)
    (p : TreeMembershipProver P C α) (path : SMTPath C α)
    (hpath : p.auth_path = some path) :
    p.generate_constraints hl hi toFC toFα =
      Except.ok ⟨toFC p.attrs_com ++ toFα p.root,
        [checkMembership hl hi p.crh_param p.root p.attrs_com path]⟩ := by
  rw [TreeMembershipProver.generate_constraints,
    TreeMembershipProver.resolve_auth_path, hpath]
  simp [R1CS.new_input, R1CS.emptyCS, R1CS.enforce]

/-- Helper: a successfully generated membership proving key records the shape
`(params, height)` and the public-input arity of the setup-mode circuit, and
its existence implies `height ≥ 2`. -/
theorem gen_tree_memb_crs_ok {P C α F : Type} [DecidableEq C] [DecidableEq α]
    [Inhabited C] [Inhabited α] (hl : P → C → C → α) (hi : P → α → α → α)
    (toFC : C → List F) (toFα : α → List F) (params : P) (h : Nat)
    (pk : G16ProvingKey (TreeShape P))
    (hpk : gen_tree_memb_crs hl hi toFC toFα params h = Except.ok pk) :
    pk = ⟨⟨params, h⟩,
      (toFC (default : C)).length + (toFα (default : α)).length⟩ ∧
      2 ≤ h := by
  rw [gen_tree_memb_crs, TreeMembershipProver.generate_constraints,
    TreeMembershipProver.resolve_auth_path] at hpk
  simp only [R1CS.new_input, R1CS.emptyCS, R1CS.enforce] at hpk
  by_cases hlt : h < 2
  · simp [hlt] at hpk
  · simp [hlt] at hpk
    refine ⟨?_, by omega⟩
    rw [← hpk]

/-- C8: when the membership circuit is run with no authentication path
(key-generation / setup mode), it constructs a dummy path consisting of a leaf
pair of two default commitment values and exactly `height - 2` pairs of
default hash outputs as inner siblings; if `height < 2` this construction
fails fatally. -/
theorem tree_dummy_path_shape {P C α : Type} [Inhabited C] [Inhabited α]
    (p : TreeMembershipProver P C α) (hnone : p.auth_path = none) :
    (2 ≤ p.height →
      p.resolve_auth_path = Except.ok
        ⟨((default : C), (default : C)),
          List.replicate (p.height - 2) ((default : α), (default : α))⟩)
    ∧ (p.height < 2 →
        p.resolve_auth_path = Except.error "tree height cannot be < 2") := by
  constructor
  · intro hh
    rw [TreeMembershipProver.resolve_auth_path, hnone]
    simp only []
    rw [if_neg (by omega)]
  · intro hlt
    rw [TreeMembershipProver.resolve_auth_path, hnone]
    simp only []
    rw [if_pos hlt]

/-- Witness for C8: a setup-mode circuit of height 4 yields the dummy path
with two inner sibling pairs, and one of height 1 fails. -/
theorem tree_dummy_path_shape_witness :
    ((⟨4, 0, 0, 0, none⟩ : TreeMembershipProver Nat Nat Nat).resolve_auth_path
        = Except.ok ⟨(0, 0), List.replicate 2 (0, 0)⟩)
    ∧ ((⟨1, 0, 0, 0, none⟩ :
          TreeMembershipProver Nat Nat Nat).resolve_auth_path =
        Except.error "tree height cannot be < 2") :=
  ⟨(tree_dummy_path_shape (⟨4, 0, 0, 0, none⟩ :
      TreeMembershipProver Nat Nat Nat) rfl).1 (by decide),
    (tree_dummy_path_shape (⟨1, 0, 0, 0, none⟩ :
      TreeMembershipProver Nat Nat Nat) rfl).2 (by decide)⟩

/-- C5: for every index and commitment such that the tree's stored value at
the index differs from the commitment, or the index is out of range,
`prove_membership` fails with a caller-visible error: the `generate_proof`
failure propagates as a proving failure, never a silently produced proof. -/
theorem prove_membership_fails_on_mismatch_or_range {P C α F : Type}
    [DecidableEq C] [DecidableEq α] [Inhabited C] [Inhabited α]
    (hl : P → C → C → α) (hi : P → α → α → α) (toFC : C → List F)
    (toFα : α → List F) (pk : G16ProvingKey (TreeShape P)) (t : ComTree P C)
    (idx : Nat) (attrs_com : C)
    (hbad : t.tree.leaves idx ≠ attrs_com ∨ 2 ^ t.tree.height ≤ idx) :
    ∃ e, t.prove_membership hl hi toFC toFα pk idx attrs_com =
      Except.error e := by
  rw [ComTree.prove_membership]
  by_cases hr : 2 ^ t.tree.height ≤ idx
  · refine ⟨"leaf index out of range", ?_⟩
    rw [SparseMerkleTree.generate_proof, if_pos hr]
  · rcases hbad with hmis | hrange
    · refine
        ⟨"mismatch: tree does not contain the expected value at the index",
          ?_⟩
      rw [SparseMerkleTree.generate_proof, if_neg hr, if_neg hmis]
    · exact absurd hrange hr

/-- Witness for C5: proving membership of a value not stored at the index
fails with the mismatch error. -/
theorem prove_membership_fails_on_mismatch_or_range_witness :
    ((ComTree.empty 0 2 : ComTree Nat Nat).tree.leaves 1 ≠ 9 ∨
        2 ^ (ComTree.empty 0 2 : ComTree Nat Nat).tree.height ≤ 1)
    ∧ ∃ e, (ComTree.empty 0 2 : ComTree Nat Nat).prove_membership
        (fun _ a b => a + b) (fun _ a b => a * 3 + b) (fun c => [c])
        (fun r => [r]) (⟨⟨0, 2⟩, 2⟩ : G16ProvingKey (TreeShape Nat)) 1 9 =
        Except.error e :=
  ⟨Or.inl (by decide),
    prove_membership_fails_on_mismatch_or_range (fun _ a b => a + b)
      (fun _ a b => a * 3 + b) (fun c => [c]) (fun r => [r]) ⟨⟨0, 2⟩, 2⟩
      (ComTree.empty 0 2) 1 9 (Or.inl (by decide))⟩

/-- C9: inserting at an in-range index of a tree whose slot never held a value
and then removing that index restores the leaves and hence the root of the
untouched tree; and removing an index whose slot already holds the canonical
default leaves the root unchanged (remove is idempotent). -/
theorem tree_insert_remove_root_restore {P C α : Type} [Inhabited C]
    (hl : P → C → C → α) (hi : P → α → α → α) (t : ComTree P C) (i : Nat)
    (c : C) (hh : 2 ≤ t.tree.height) (hidx : i < 2 ^ t.tree.height)
    (hdef : t.tree.leaves i = default) :
    (∃ t1 t2, t.insert i c = Except.ok t1 ∧ t1.remove i = Except.ok t2 ∧
      t2.root hl hi = t.root hl hi)
    ∧ ∃ t3, t.remove i = Except.ok t3 ∧ t3.root hl hi = t.root hl hi := by
  have hupd2 : Function.update t.tree.leaves i (default : C) =
      t.tree.leaves := by
    have hself := Function.update_eq_self i t.tree.leaves
    rw [hdef] at hself
    exact hself
  have hupd : Function.update (Function.update t.tree.leaves i c) i
      (default : C) = t.tree.leaves := by
    rw [Function.update_idem]
    exact hupd2
  constructor
  · refine ⟨⟨⟨t.tree.height, t.tree.two_to_one_param,
      Function.update t.tree.leaves i c⟩⟩,
      ⟨⟨t.tree.height, t.tree.two_to_one_param,
        Function.update (Function.update t.tree.leaves i c) i default⟩⟩,
      ?_, ?_, ?_⟩
    · rw [ComTree.insert, SparseMerkleTree.insert, if_pos hidx]
    · rw [ComTree.remove, SparseMerkleTree.remove]
      simp only []
      rw [if_pos hidx]
    · rw [ComTree.root, ComTree.root, SparseMerkleTree.root,
        SparseMerkleTree.root]
      simp only [hupd]
  · refine ⟨⟨⟨t.tree.height, t.tree.two_to_one_param,
      Function.update t.tree.leaves i default⟩⟩, ?_, ?_⟩
    · rw [ComTree.remove, SparseMerkleTree.remove, if_pos hidx]
    · rw [ComTree.root, ComTree.root, SparseMerkleTree.root,
        SparseMerkleTree.root]
      simp only [hupd2]

/-- Witness for C9 at a concrete height-2 tree. -/
theorem tree_insert_remove_root_restore_witness :
    (2 ≤ (ComTree.empty 0 2 : ComTree Nat Nat).tree.height ∧
        1 < 2 ^ (ComTree.empty 0 2 : ComTree Nat Nat).tree.height ∧
        (ComTree.empty 0 2 : ComTree Nat Nat).tree.leaves 1 = default)
    ∧ ((∃ t1 t2, (ComTree.empty 0 2 : ComTree Nat Nat).insert 1 9 =
          Except.ok t1 ∧ t1.remove 1 = Except.ok t2 ∧
          t2.root (fun _ a b => a + 2 * b) (fun _ a b => 3 * a + b) =
            (ComTree.empty 0 2 : ComTree Nat Nat).root
              (fun _ a b => a + 2 * b) (fun _ a b => 3 * a + b))
        ∧ ∃ t3, (ComTree.empty 0 2 : ComTree Nat Nat).remove 1 =
            Except.ok t3 ∧
            t3.root (fun _ a b => a + 2 * b) (fun _ a b => 3 * a + b) =
              (ComTree.empty 0 2 : ComTree Nat Nat).root
                (fun _ a b => a + 2 * b) (fun _ a b => 3 * a + b)) :=
  ⟨⟨by decide, by decide, rfl⟩,
    tree_insert_remove_root_restore (fun _ a b => a + 2 * b)
      (fun _ a b => 3 * a + b) (ComTree.empty 0 2) 1 9 (by decide) (by decide)
      rfl⟩

/-- C7: the public-input vector used for membership verification is the
field-element encoding of `attrs_com` followed by the encoding of the root, in
exactly that order, and the membership circuit declares its public inputs in
the same order: `attrs_com` is allocated first, then the root. -/
theorem tree_public_input_order {P C α F : Type} [DecidableEq P]
    [DecidableEq C] [DecidableEq α] [DecidableEq F] [Inhabited C] [Inhabited α]
    (hl : P → C → C → α) (hi : P → α → α → α) (toFC : C → List F)
    (toFα : α → List F) (vk : G16VerifyingKey (TreeShape P))
    (proof : G16Proof (TreeShape P) F) (attrs_com : C) (merkle_root : α)
    (p : TreeMembershipProver P C α) (path : SMTPath C α)
    (hpath : p.auth_path = some path) :
    verify_tree_memb toFC toFα vk proof attrs_com merkle_root =
      g16Verify vk proof (toFC attrs_com ++ toFα merkle_root)
    ∧ ∃ r, p.generate_constraints hl hi toFC toFα = Except.ok r ∧
        r.pubs = toFC p.attrs_com ++ toFα p.root := by
  constructor
  · rfl
  · exact ⟨_, tree_generate_constraints_some hl hi toFC toFα p path hpath,
      rfl⟩

/-- Witness for C7 at a concrete proving-mode circuit. -/
theorem tree_public_input_order_witness :
    verify_tree_memb (fun c : Nat => [c]) (fun r : Nat => [r])
        (⟨⟨0, 2⟩, 2⟩ : G16VerifyingKey (TreeShape Nat)) ⟨⟨0, 2⟩, [5, 7]⟩ 5 7 =
      g16Verify (⟨⟨0, 2⟩, 2⟩ : G16VerifyingKey (TreeShape Nat))
        (⟨⟨0, 2⟩, [5, 7]⟩ : G16Proof (TreeShape Nat) Nat) ([5] ++ [7])
    ∧ ∃ r, TreeMembershipProver.generate_constraints (fun _ a b => a + b)
        (fun _ a b => a * b) (fun c : Nat => [c]) (fun r : Nat => [r])
        ⟨2, 0, 5, 7, some ⟨(5, 0), []⟩⟩ = Except.ok r ∧
        r.pubs = [5] ++ [7] :=
  tree_public_input_order (fun _ a b => a + b) (fun _ a b => a * b)
    (fun c : Nat => [c]) (fun r : Nat => [r]) ⟨⟨0, 2⟩, 2⟩ ⟨⟨0, 2⟩, [5, 7]⟩ 5 7
    ⟨2, 0, 5, 7, some ⟨(5, 0), []⟩⟩ ⟨(5, 0), []⟩ rfl

/-- Helper: if the auth path for `(idx, com)` is generated successfully and
passes the membership check against the tree's root, then `prove_membership`
returns the proof carrying the key's shape and the public inputs
`attrs_com` then `root`. -/
theorem prove_membership_of_checked {P C α F : Type} [DecidableEq C]
    [DecidableEq α] [Inhabited C] [Inhabited α] (hl : P → C → C → α)
    (hi : P → α → α → α) (toFC : C → List F) (toFα : α → List F)
    (pk : G16ProvingKey (TreeShape P)) (t1 : ComTree P C) (idx : Nat)
    (com : C) (path : SMTPath C α)
    (hgen : t1.tree.generate_proof hl hi idx com = Except.ok path)
    (hcheck : checkMembership hl hi t1.tree.two_to_one_param
      (t1.tree.root hl hi) com path = true) :
    t1.prove_membership hl hi toFC toFα pk idx com =
      Except.ok ⟨pk.shape, toFC com ++ toFα (t1.tree.root hl hi)⟩ := by
  rw [ComTree.prove_membership, hgen]
  dsimp only
  rw [tree_generate_constraints_some hl hi toFC toFα
    ⟨t1.tree.height, t1.tree.two_to_one_param, com, t1.tree.root hl hi,
      some path⟩ path rfl]
  dsimp only
  rw [g16Prove]
  simp only [R1CS.satisfied, List.all_cons, List.all_nil, Bool.and_true]
  rw [hcheck]
  simp

/-- C1: for every tree height `h ≥ 2` and every index `i < 2^h`, after
`insert(i, c)` on the tree, `prove_membership` with a valid proving key for
`(h, hash params)`, index `i`, and commitment `c` succeeds, and verifying that
proof against `c` and the tree's current root returns `true`. -/
theorem tree_insert_prove_membership_verify {P C α F : Type} [DecidableEq P]
    [DecidableEq C] [DecidableEq α] [DecidableEq F] [Inhabited C] [Inhabited α]
    (hl : P → C → C → α) (hi : P → α → α → α) (toFC : C → List F)
    (toFα : α → List F)
    (hlenC : ∀ x y : C, (toFC x).length = (toFC y).length)
    (hlenα : ∀ x y : α, (toFα x).length = (toFα y).length)
    (params : P) (h : Nat) (hh : 2 ≤ h) (pk : G16ProvingKey (TreeShape P))
    (hpk : gen_tree_memb_crs hl hi toFC toFα params h = Except.ok pk)
    (t : ComTree P C) (hth : t.tree.height = h)
    (htp : t.tree.two_to_one_param = params) (i : Nat) (hi2 : i < 2 ^ h)
    (c : C) :
    ∃ t1 proof, t.insert i c = Except.ok t1 ∧
      t1.prove_membership hl hi toFC toFα pk i c = Except.ok proof ∧
      verify_tree_memb toFC toFα pk.prepare_verifying_key proof c
        (t1.root hl hi) = Except.ok true := by
  obtain ⟨hpkeq, -⟩ := gen_tree_memb_crs_ok hl hi toFC toFα params h pk hpk
  subst hth
  subst htp
  have hupd : (Function.update t.tree.leaves i c) i = c :=
    Function.update_same i c t.tree.leaves
  obtain ⟨path, hgen, hcheck⟩ := generate_proof_complete hl hi
    (⟨t.tree.height, t.tree.two_to_one_param,
      Function.update t.tree.leaves i c⟩ : SparseMerkleTree P C) i c
    (Nat.le_of_succ_le hh) hi2 hupd
  refine ⟨⟨⟨t.tree.height, t.tree.two_to_one_param,
      Function.update t.tree.leaves i c⟩⟩,
    ⟨pk.shape, toFC c ++ toFα ((⟨t.tree.height, t.tree.two_to_one_param,
      Function.update t.tree.leaves i c⟩ : SparseMerkleTree P C).root hl
        hi)⟩, ?_, ?_, ?_⟩
  · rw [ComTree.insert, SparseMerkleTree.insert, if_pos hi2]
  · exact prove_membership_of_checked hl hi toFC toFα pk _ i c path hgen
      hcheck
  · have hlen2 : (toFC c ++ toFα (ComTree.root hl hi
        (⟨⟨t.tree.height, t.tree.two_to_one_param,
          Function.update t.tree.leaves i c⟩⟩ : ComTree P C))).length =
        (pk.prepare_verifying_key).nPubs := by
      rw [hpkeq]
      simp only [G16ProvingKey.prepare_verifying_key, List.length_append]
      rw [hlenC c default, hlenα _ default]
    rw [verify_tree_memb, g16Verify, if_pos hlen2]
    simp [G16ProvingKey.prepare_verifying_key, ComTree.root]

/-- Witness for C1: a height-2 tree, insert commitment 9 at index 1, prove
membership, and verify against the root. -/
theorem tree_insert_prove_membership_verify_witness :
    ∃ t1 proof,
      (ComTree.empty 0 2 : ComTree Nat Nat).insert 1 9 = Except.ok t1 ∧
      t1.prove_membership (fun _ a b => 2 * a + 3 * b + 1)
        (fun _ a b => 5 * a + 7 * b + 11) (fun c : Nat => [c])
        (fun r : Nat => [r]) (⟨⟨0, 2⟩, 2⟩ : G16ProvingKey (TreeShape Nat)) 1 9
        = Except.ok proof ∧
      verify_tree_memb (fun c : Nat => [c]) (fun r : Nat => [r])
        (G16ProvingKey.prepare_verifying_key ⟨⟨0, 2⟩, 2⟩) proof 9
        (t1.root (fun _ a b => 2 * a + 3 * b + 1)
          (fun _ a b => 5 * a + 7 * b + 11)) = Except.ok true :=
  tree_insert_prove_membership_verify (fun _ a b => 2 * a + 3 * b + 1)
    (fun _ a b => 5 * a + 7 * b + 11) (fun c : Nat => [c]) (fun r : Nat => [r])
    (fun _ _ => rfl) (fun _ _ => rfl) 0 2 (by decide) ⟨⟨0, 2⟩, 2⟩ rfl
    (ComTree.empty 0 2) rfl rfl 1 (by decide) 9

/-- C6: verification is total over well-typed inputs: against a verifying key
generated for any height and parameters, `verify_tree_memb` on any proof,
commitment, and root returns a boolean, never an error; every proof built by
`prove_membership` carries the shape of the key it was built with; and a proof
whose key shape differs from the verifying key's (different height or
parameters) verifies to `false`, not an error or crash. -/
theorem verify_tree_memb_total_and_false_on_key_mismatch {P C α F : Type}
    [DecidableEq P] [DecidableEq C] [DecidableEq α] [DecidableEq F]
    [Inhabited C] [Inhabited α] (hl : P → C → C → α) (hi : P → α → α → α)
    (toFC : C → List F) (toFα : α → List F)
    (hlenC : ∀ x y : C, (toFC x).length = (toFC y).length)
    (hlenα : ∀ x y : α, (toFα x).length = (toFα y).length)
    (params1 : P) (h1 : Nat) (pk1 : G16ProvingKey (TreeShape P))
    (hpk1 : gen_tree_memb_crs hl hi toFC toFα params1 h1 = Except.ok pk1) :
    (∀ (proof : G16Proof (TreeShape P) F) (com : C) (root : α),
      ∃ b, verify_tree_memb toFC toFα pk1.prepare_verifying_key proof com
        root = Except.ok b)
    ∧ (∀ (pk2 : G16ProvingKey (TreeShape P)) (t : ComTree P C) (idx : Nat)
        (com : C) (proof : G16Proof (TreeShape P) F),
        t.prove_membership hl hi toFC toFα pk2 idx com = Except.ok proof →
        proof.shape = pk2.shape)
    ∧ ∀ (proof : G16Proof (TreeShape P) F) (com : C) (root : α),
        proof.shape ≠ pk1.shape →
        verify_tree_memb toFC toFα pk1.prepare_verifying_key proof com root =
          Except.ok false := by
  obtain ⟨hpkeq, -⟩ := gen_tree_memb_crs_ok hl hi toFC toFα params1 h1 pk1
    hpk1
  have hlen : ∀ (com : C) (root : α), (toFC com ++ toFα root).length =
      pk1.prepare_verifying_key.nPubs := by
    intro com root
    rw [hpkeq]
    simp only [G16ProvingKey.prepare_verifying_key, List.length_append]
    rw [hlenC com default, hlenα root default]
  refine ⟨?_, ?_, ?_⟩
  · intro proof com root
    exact ⟨_, by rw [verify_tree_memb, g16Verify, if_pos (hlen com root)]⟩
  · intro pk2 t idx com proof hok
    rw [ComTree.prove_membership] at hok
    cases hgp : t.tree.generate_proof hl hi idx com with
    | error e =>
      rw [hgp] at hok
      simp at hok
    | ok path =>
      rw [hgp] at hok
      dsimp only at hok
      rw [tree_generate_constraints_some hl hi toFC toFα
        ⟨t.tree.height, t.tree.two_to_one_param, com, t.tree.root hl hi,
          some path⟩ path rfl] at hok
      dsimp only at hok
      rw [g16Prove] at hok
      split at hok
      · cases hok
        rfl
      · simp at hok
  · intro proof com root hne
    rw [verify_tree_memb, g16Verify, if_pos (hlen com root)]
    have hsh : (proof.shape == pk1.prepare_verifying_key.shape) = false := by
      simp only [G16ProvingKey.prepare_verifying_key]
      simp only [beq_eq_false_iff_ne, ne_eq]
      exact hne
    rw [hsh]
    simp

/-- Witness for C6: a key generated for height 2 and parameter 0 verifies a
proof carrying shape (1, 3) to `ok false`, and verification of an arbitrary
proof returns a boolean. -/
theorem verify_tree_memb_total_and_false_on_key_mismatch_witness :
    (∃ b, verify_tree_memb (fun c : Nat => [c]) (fun r : Nat => [r])
      (G16ProvingKey.prepare_verifying_key
        (⟨⟨0, 2⟩, 2⟩ : G16ProvingKey (TreeShape Nat)))
      (⟨⟨1, 3⟩, [5, 7]⟩ : G16Proof (TreeShape Nat) Nat) 5 7 = Except.ok b)
    ∧ verify_tree_memb (fun c : Nat => [c]) (fun r : Nat => [r])
      (G16ProvingKey.prepare_verifying_key
        (⟨⟨0, 2⟩, 2⟩ : G16ProvingKey (TreeShape Nat)))
      (⟨⟨1, 3⟩, [5, 7]⟩ : G16Proof (TreeShape Nat) Nat) 5 7 =
        Except.ok false :=
  ⟨(verify_tree_memb_total_and_false_on_key_mismatch
      (fun _ a b => 2 * a + 3 * b + 1) (fun _ a b => 5 * a + 7 * b + 11)
      (fun c : Nat => [c]) (fun r : Nat => [r]) (fun _ _ => rfl)
      (fun _ _ => rfl) 0 2 ⟨⟨0, 2⟩, 2⟩ rfl).1 ⟨⟨1, 3⟩, [5, 7]⟩ 5 7,
    (verify_tree_memb_total_and_false_on_key_mismatch
      (fun _ a b => 2 * a + 3 * b + 1) (fun _ a b => 5 * a + 7 * b + 11)
      (fun c : Nat => [c]) (fun r : Nat => [r]) (fun _ _ => rfl)
      (fun _ _ => rfl) 0 2 ⟨⟨0, 2⟩, 2⟩ rfl).2.2 ⟨⟨1, 3⟩, [5, 7]⟩ 5 7
      (by decide)⟩
